import Mathlib

/-!
Verification of the sling HTTP request builder (src/sling.go, the version with
Header / jsonBody / bodyStruct / safeMode fields).

The Go code is shallowly embedded: Sling values are pure records, mutation is
explicit state passing, fallible operations return `Except String`.  The Go
standard library pieces the code calls (net/url parsing and reference
resolution, url.Values, textproto header canonicalization, encoding/json) and
the external go-querystring dependency are modelled as executable Lean
functions faithful to their documented behavior on the inputs in scope
(ASCII strings without percent-escapes in hosts/paths; query structs are
modelled by their flattened url.Values result, since go-querystring is an
external library).  Aliasing of the mutable collections (the header map and
the queryStructs slice) is modelled separately by a small heap of cells, used
to state the parent/child isolation property of Sling.New.
-/

namespace SlingModel

/-! ## Small string helpers (counterparts of the Go strings/bytes operations) -/

/-- Go stringContainsCTLByte: any byte below 0x20 or equal to 0x7f. -/
def containsCTL (s : String) : Bool :=
  s.data.any (fun ch => ch.toNat < 32 || ch.toNat == 127)

/-- strings.Cut at the first occurrence of character c: (before, after).
If c does not occur, after is empty (the found flag is not needed by callers
that treat missing and empty alike, mirroring the Go call sites). -/
def cutFirst (s : String) (c : Char) : String × String :=
  match s.data.findIdx? (· = c) with
  | none => (s, "")
  | some i => (String.mk (s.data.take i), String.mk (s.data.drop (i + 1)))

/-- Whether character c occurs in s (strings.Contains for a single char). -/
def strContainsChar (s : String) (c : Char) : Bool :=
  s.data.any (· = c)

/-- Index of the last occurrence of c in the list, if any. -/
def lastIdxOf (c : Char) : List Char → Option Nat
  | [] => none
  | x :: xs =>
    match lastIdxOf c xs with
    | some i => some (i + 1)
    | none => if x = c then some 0 else none

/-- base[:strings.LastIndex(base, sep)+1] for sep = "/" (empty if no slash). -/
def takeThroughLastSlash (base : String) : String :=
  match lastIdxOf '/' base.data with
  | none => ""
  | some i => String.mk (base.data.take (i + 1))

/-- strings.HasPrefix test, structurally on the character lists. -/
def startsWithChars : List Char → List Char → Bool
  | _, [] => true
  | [], _ :: _ => false
  | c :: cs, p :: ps => c = p && startsWithChars cs ps

def strStartsWith (s p : String) : Bool :=
  startsWithChars s.data p.data

/-- Drop the first n characters. -/
def strDrop (s : String) (n : Nat) : String :=
  String.mk (s.data.drop n)

/-- Drop the final character. -/
def strDropLast (s : String) : String :=
  String.mk s.data.dropLast

/-- Whether the string ends with the given character. -/
def endsWithChar (s : String) (c : Char) : Bool :=
  match s.data.getLast? with
  | some d => d = c
  | none => false

def splitOnCharAux (c : Char) : List Char → List Char → List String
  | [], cur => [String.mk cur.reverse]
  | x :: xs, cur =>
    if x = c then String.mk cur.reverse :: splitOnCharAux c xs []
    else splitOnCharAux c xs (x :: cur)

/-- strings.Split at a one-character separator. -/
def splitOnChar (s : String) (c : Char) : List String :=
  splitOnCharAux c s.data []

/-- strings.Join with the given separator. -/
def joinSep (sep : String) : List String → String
  | [] => ""
  | [x] => x
  | x :: y :: rest => x ++ sep ++ joinSep sep (y :: rest)

/-- strings.TrimPrefix(s, sep) for sep = "/" (drops one leading slash). -/
def trimOneLeadingSlash (s : String) : String :=
  if strStartsWith s "/" then strDrop s 1 else s

/-- Last element of a list of strings, or default. -/
def lastD (l : List String) (d : String) : String :=
  match l.getLast? with
  | some x => x
  | none => d

/-- ASCII lowercase of a string (strings.ToLower on the inputs in scope). -/
def asciiLower (s : String) : String :=
  String.mk (s.data.map Char.toLower)

/-! ## Model of net/url URLs -/

/-- Model of net/url.URL (User is not modelled; the code in scope never
produces user info). `opq` is the URL's opaque part. -/
structure URL where
  scheme : String := ""
  opq : String := ""
  host : String := ""
  omitHost : Bool := false
  path : String := ""
  forceQuery : Bool := false
  rawQuery : String := ""
  fragment : String := ""
deriving Repr, DecidableEq

/-- Model of net/url getScheme: splits "scheme:rest", erroring on a leading
colon, and treating any string without a valid scheme prefix as scheme-less. -/
def getSchemeAux (raw : List Char) : List Char → Nat → Except String (String × String)
  | [], _ => .ok ("", String.mk raw)
  | c :: cs, i =>
    if c.isAlpha then getSchemeAux raw cs (i + 1)
    else if c.isDigit || c = '+' || c = '-' || c = '.' then
      if i = 0 then .ok ("", String.mk raw) else getSchemeAux raw cs (i + 1)
    else if c = ':' then
      if i = 0 then .error "missing protocol scheme"
      else .ok (String.mk (raw.take i), String.mk (raw.drop (i + 1)))
    else .ok ("", String.mk raw)

def getScheme (raw : String) : Except String (String × String) :=
  getSchemeAux raw.data raw.data 0

/-- Go validOptionalPort: empty, or a colon followed by zero or more digits. -/
def validOptionalPort (p : String) : Bool :=
  match p.data with
  | [] => true
  | c :: rest => c = ':' && rest.all Char.isDigit

/-- Model of net/url parseAuthority / parseHost for the non-bracketed case:
split off userinfo at the last at-sign and validate an optional numeric port.
Percent-escapes and userinfo validation are not modelled (no input in scope
uses them). -/
def parseAuthority (authority : String) : Except String String :=
  let host :=
    match lastIdxOf '@' authority.data with
    | none => authority
    | some i => String.mk (authority.data.drop (i + 1))
  match lastIdxOf ':' host.data with
  | none => .ok host
  | some i =>
    if validOptionalPort (String.mk (host.data.drop i)) then .ok host
    else .error "invalid port"

/-- Model of net/url parse (viaRequest = false), applied to the part of the
raw URL before any fragment. -/
def urlParseAfterFrag (raw : String) : Except String URL :=
  if containsCTL raw then .error "net/url: invalid control character in URL"
  else if raw = "*" then .ok { path := "*" }
  else
    match getScheme raw with
    | .error e => .error e
    | .ok (scheme0, rest0) =>
      let scheme := asciiLower scheme0
      let (rest, forceQuery, rawQuery) :=
        if endsWithChar rest0 '?' && !(strContainsChar (strDropLast rest0) '?') then
          (strDropLast rest0, true, "")
        else
          let (a, b) := cutFirst rest0 '?'
          (a, false, b)
      if !strStartsWith rest "/" && scheme ≠ "" then
        .ok { scheme := scheme, opq := rest, forceQuery := forceQuery, rawQuery := rawQuery }
      else if !strStartsWith rest "/" && strContainsChar (cutFirst rest '/').1 ':' then
        .error "first path segment in URL cannot contain colon"
      else if (scheme ≠ "" || !strStartsWith rest "///") && strStartsWith rest "//" then
        let afterTwo := strDrop rest 2
        let (authority, path) :=
          match afterTwo.data.findIdx? (· = '/') with
          | none => (afterTwo, "")
          | some i => (String.mk (afterTwo.data.take i), String.mk (afterTwo.data.drop i))
        match parseAuthority authority with
        | .error e => .error e
        | .ok host =>
          .ok { scheme := scheme, host := host, path := path,
                forceQuery := forceQuery, rawQuery := rawQuery }
      else
        .ok { scheme := scheme, omitHost := scheme ≠ "" && strStartsWith rest "/",
              path := rest, forceQuery := forceQuery, rawQuery := rawQuery }

/-- Model of net/url.Parse: cut the fragment, parse the rest. -/
def urlParse (rawURL : String) : Except String URL :=
  let (beforeFrag, frag) := cutFirst rawURL '#'
  match urlParseAfterFrag beforeFrag with
  | .error e => .error e
  | .ok u => .ok { u with fragment := frag }

/-- Model of net/url resolvePath: merge base and ref paths and remove dot
segments, always returning a leading slash for non-empty results. -/
def resolvePath (base ref : String) : String :=
  let full :=
    if ref = "" then base
    else if !strStartsWith ref "/" then takeThroughLastSlash base ++ ref
    else ref
  if full = "" then ""
  else
    let src := splitOnChar full '/'
    let dst := src.foldl
      (fun d e =>
        if e = "." then d
        else if e = ".." then d.dropLast
        else d ++ [e]) ([] : List String)
    let dst := if lastD src "" = "." || lastD src "" = ".." then dst ++ [""] else dst
    "/" ++ trimOneLeadingSlash (joinSep "/" dst)

/-- Model of (*URL).ResolveReference per RFC 3986 as net/url implements it. -/
def URL.resolveReference (u ref : URL) : URL :=
  let r := { ref with scheme := if ref.scheme = "" then u.scheme else ref.scheme }
  if ref.scheme ≠ "" || ref.host ≠ "" then
    { r with path := resolvePath ref.path "" }
  else if ref.opq ≠ "" then
    { r with host := "", path := "" }
  else
    let r :=
      if ref.path = "" && !ref.forceQuery && ref.rawQuery = "" then
        { r with rawQuery := u.rawQuery,
                 fragment := if ref.fragment = "" then u.fragment else ref.fragment }
      else r
    { r with host := u.host, omitHost := false,
             path := resolvePath u.path ref.path }

/-- Model of (*URL).String (escaping of hosts and paths is the identity on the
inputs in scope, which contain no characters needing escapes). -/
def URL.string (u : URL) : String :=
  let pre := if u.scheme ≠ "" then u.scheme ++ ":" else ""
  let querySuffix := if u.forceQuery || u.rawQuery ≠ "" then "?" ++ u.rawQuery else ""
  let fragSuffix := if u.fragment ≠ "" then "#" ++ u.fragment else ""
  if u.opq ≠ "" then
    pre ++ u.opq ++ querySuffix ++ fragSuffix
  else
    let auth :=
      if u.scheme ≠ "" || u.host ≠ "" then
        if u.omitHost && u.host = "" then ""
        else (if u.host ≠ "" || u.path ≠ "" then "//" else "") ++ u.host
      else ""
    let slashFix :=
      if u.path ≠ "" && !strStartsWith u.path "/" && u.host ≠ "" then "/" else ""
    let dotFix :=
      if pre ++ auth ++ slashFix = "" && strContainsChar (cutFirst u.path '/').1 ':'
      then "./" else ""
    pre ++ auth ++ slashFix ++ dotFix ++ u.path ++ querySuffix ++ fragSuffix

/-! ## Model of url.Values and query encoding -/

/-- url.Values: a map from key to list of values, modelled as an association
list with unique keys (first-insertion order; ordering is irrelevant to the
observations below because Encode sorts keys). -/
abbrev Values := List (String × List String)

/-- Append a value for a key (map append semantics of url.Values.Add). -/
def assocAdd : Values → String → String → Values
  | [], k, v => [(k, [v])]
  | (k', vs) :: rest, k, v =>
    if k' = k then (k', vs ++ [v]) :: rest
    else (k', vs) :: assocAdd rest k v

/-- Replace the values of a key (map assignment semantics). -/
def assocSet : Values → String → List String → Values
  | [], k, vs => [(k, vs)]
  | (k', vs') :: rest, k, vs =>
    if k' = k then (k', vs) :: rest
    else (k', vs') :: assocSet rest k vs

/-- All values stored under a key (empty list when absent). -/
def assocGet : Values → String → List String
  | [], _ => []
  | (k', vs) :: rest, k => if k' = k then vs else assocGet rest k

def isHexChar (c : Char) : Bool :=
  c.isDigit || ('a' ≤ c && c ≤ 'f') || ('A' ≤ c && c ≤ 'F')

def hexVal (c : Char) : Nat :=
  if c.isDigit then c.toNat - 48
  else if 'a' ≤ c && c ≤ 'f' then c.toNat - 87
  else c.toNat - 55

def upperHexChar (n : Nat) : Char :=
  if n < 10 then Char.ofNat (48 + n) else Char.ofNat (55 + n)

/-- Model of url.QueryUnescape: plus becomes space, percent escapes decode,
malformed escapes are an error. -/
def unescapeQueryAux : List Char → Except String (List Char)
  | [] => .ok []
  | '%' :: a :: b :: rest =>
    if isHexChar a && isHexChar b then
      match unescapeQueryAux rest with
      | .error e => .error e
      | .ok cs => .ok (Char.ofNat (16 * hexVal a + hexVal b) :: cs)
    else .error "invalid URL escape"
  | '%' :: _ => .error "invalid URL escape"
  | '+' :: rest =>
    match unescapeQueryAux rest with
    | .error e => .error e
    | .ok cs => .ok (' ' :: cs)
  | c :: rest =>
    match unescapeQueryAux rest with
    | .error e => .error e
    | .ok cs => .ok (c :: cs)

def queryUnescape (s : String) : Except String String :=
  match unescapeQueryAux s.data with
  | .error e => .error e
  | .ok cs => .ok (String.mk cs)

/-- Characters url.QueryEscape leaves unescaped. -/
def isQueryUnreserved (c : Char) : Bool :=
  c.isAlphanum || c = '-' || c = '_' || c = '.' || c = '~'

/-- Model of url.QueryEscape (each char escaped bytewise; inputs in scope are
ASCII). -/
def queryEscape (s : String) : String :=
  s.data.foldl
    (fun acc c =>
      if c = ' ' then acc ++ "+"
      else if isQueryUnreserved c then acc.push c
      else acc ++ String.mk ['%', upperHexChar (c.toNat % 256 / 16), upperHexChar (c.toNat % 16)])
    ""

/-- Model of url.ParseQuery: split on ampersands, reject semicolons, skip
empty chunks, unescape keys and values, accumulate with Add semantics.  Go
records the first error but the only caller in scope discards the partially
built map on error, so an error-aborting fold is observably the same. -/
def parseQueryStep (m : Values) (chunk : String) : Except String Values :=
  if strContainsChar chunk ';' then .error "invalid semicolon separator in query"
  else if chunk = "" then .ok m
  else
    let (k0, v0) := cutFirst chunk '='
    match queryUnescape k0 with
    | .error e => .error e
    | .ok k =>
      match queryUnescape v0 with
      | .error e => .error e
      | .ok v => .ok (assocAdd m k v)

def parseQueryGo (query : String) : Except String Values :=
  (splitOnChar query '&').foldlM parseQueryStep ([] : Values)

/-- Byte-lexicographic order on strings (sort.Strings order for ASCII). -/
def goLexLe : List Char → List Char → Bool
  | [], _ => true
  | _ :: _, [] => false
  | a :: as, b :: bs => if a = b then goLexLe as bs else decide (a < b)

def strLe (a b : String) : Bool := goLexLe a.data b.data

def insertSorted (x : String) : List String → List String
  | [] => [x]
  | y :: ys => if strLe x y then x :: y :: ys else y :: insertSorted x ys

def sortStrings (l : List String) : List String :=
  l.foldr insertSorted []

/-- Model of url.Values.Encode: keys sorted, each value emitted in order,
key=value pairs joined with ampersands. -/
def valuesEncode (v : Values) : String :=
  joinSep "&"
    ((sortStrings (v.map (·.1))).flatMap
      (fun k => (assocGet v k).map (fun x => queryEscape k ++ "=" ++ queryEscape x)))

/-! ## Query structs (go-querystring) -/

/-- Modelled external dependency github.com/google/go-querystring: a value
passed to goquery.Values is represented by its flattening outcome, either the
url.Values it produces or the error. -/
inductive QueryStruct where
  | flat (pairs : List (String × List String))
  | invalid (msg : String)
deriving Repr, DecidableEq

/-- goquery.Values on a modelled query struct. -/
def goqueryValues : QueryStruct → Except String (List (String × List String))
  | .flat pairs => .ok pairs
  | .invalid msg => .error msg

/-- The inner merge loop of addQueryStructs: Add every (key, value) of one
flattened query struct into the accumulated url.Values. -/
def addPairs (uv : Values) (pairs : List (String × List String)) : Values :=
  pairs.foldl (fun uv kv => kv.2.foldl (fun uv v => assocAdd uv kv.1 v) uv) uv

/-- One iteration of the addQueryStructs loop: flatten a query struct with
goquery.Values and merge its pairs into the accumulated url.Values. -/
def addStructStep (uv : Values) (q : QueryStruct) : Except String Values :=
  match goqueryValues q with
  | .error e => .error e
  | .ok queryValues => .ok (addPairs uv queryValues)

def addQueryStructs (reqURL : URL) (queryStructs : List QueryStruct) : Except String URL :=
  match parseQueryGo reqURL.rawQuery with
  | .error e => .error e
  | .ok urlValues =>
    match queryStructs.foldlM addStructStep urlValues with
    | .error e => .error e
    | .ok urlValues => .ok { reqURL with rawQuery := valuesEncode urlValues }

/-! ## Headers (net/http Header over textproto MIME canonicalization) -/

/-- http.Header: map from canonical key to list of values, modelled as an
association list with unique keys. -/
abbrev Header := List (String × List String)

/-- Valid header field byte (the textproto token table). -/
def isTokenChar (c : Char) : Bool :=
  c.isAlphanum || strContainsChar "!#$%&*+-.^_|~" c || c.toNat = 39 || c.toNat = 96

def canonAux : Bool → List Char → List Char
  | _, [] => []
  | upper, c :: rest =>
    let c' := if upper then c.toUpper else c.toLower
    c' :: canonAux (c' = '-') rest

/-- textproto.CanonicalMIMEHeaderKey: canonicalize case if every byte is a
valid token byte, otherwise return the key unchanged. -/
def canonicalMIMEHeaderKey (s : String) : String :=
  if s.data.all isTokenChar then String.mk (canonAux true s.data) else s

/-- http.Header.Add. -/
def headerAdd (h : Header) (key value : String) : Header :=
  assocAdd h (canonicalMIMEHeaderKey key) value

/-- http.Header.Set. -/
def headerSet (h : Header) (key value : String) : Header :=
  assocSet h (canonicalMIMEHeaderKey key) [value]

/-- http.Header.Get: first value for the canonical key, or empty. -/
def headerGet (h : Header) (key : String) : String :=
  (assocGet h (canonicalMIMEHeaderKey key)).headD ""

/-! ## Model of encoding/json -/

/-- A Go value as seen by encoding/json: numbers carry a finiteness flag
(Go floats may be Inf/NaN, which json encoding rejects) and their decimal
rendering. -/
inductive JVal where
  | jnull
  | jbool (b : Bool)
  | jnum (finite : Bool) (render : String)
  | jstr (s : String)
  | jarr (elems : List JVal)
  | jobj (fields : List (String × JVal))
deriving Repr

def lbraceChar : Char := Char.ofNat 123
def rbraceChar : Char := Char.ofNat 125

/-- JSON string quoting as the Go encoder does for the characters in scope
(HTML-escaping of angle brackets and ampersands included, as Encoder defaults
to SetEscapeHTML(true)). -/
def jsonQuote (s : String) : String :=
  "\"" ++
    s.data.foldl
      (fun acc c =>
        if c = '"' then acc ++ "\\\""
        else if c = '\\' then acc ++ "\\\\"
        else if c = '\n' then acc ++ "\\n"
        else if c = '\t' then acc ++ "\\t"
        else if c = '\r' then acc ++ "\\r"
        else if c = '<' then acc ++ "\\u003c"
        else if c = '>' then acc ++ "\\u003e"
        else if c = '&' then acc ++ "\\u0026"
        else if c.toNat < 32 then
          acc ++ "\\u00" ++ String.mk [upperHexChar (c.toNat / 16), upperHexChar (c.toNat % 16)]
        else acc.push c)
      "" ++ "\""

mutual

/-- json.Marshal on a modelled Go value; fails exactly when a non-finite
number occurs anywhere, with the Go error text. -/
def marshalJVal : JVal → Except String String
  | .jnull => .ok "null"
  | .jbool true => .ok "true"
  | .jbool false => .ok "false"
  | .jnum finite render =>
    if finite then .ok render else .error ("json: unsupported value: " ++ render)
  | .jstr s => .ok (jsonQuote s)
  | .jarr es =>
    match marshalArr es with
    | .error e => .error e
    | .ok body => .ok ("[" ++ body ++ "]")
  | .jobj fs =>
    match marshalObj fs with
    | .error e => .error e
    | .ok body => .ok ("\x7b" ++ body ++ "\x7d")

def marshalArr : List JVal → Except String String
  | [] => .ok ""
  | [x] => marshalJVal x
  | x :: y :: rest =>
    match marshalJVal x with
    | .error e => .error e
    | .ok sx =>
      match marshalArr (y :: rest) with
      | .error e => .error e
      | .ok srest => .ok (sx ++ "," ++ srest)

def marshalObj : List (String × JVal) → Except String String
  | [] => .ok ""
  | [(k, x)] =>
    match marshalJVal x with
    | .error e => .error e
    | .ok sx => .ok (jsonQuote k ++ ":" ++ sx)
  | (k, x) :: f :: rest =>
    match marshalJVal x with
    | .error e => .error e
    | .ok sx =>
      match marshalObj (f :: rest) with
      | .error e => .error e
      | .ok srest => .ok (jsonQuote k ++ ":" ++ sx ++ "," ++ srest)

end

/-- Whitespace skipping of the JSON scanner. -/
def pSkipWs (cs : List Char) : List Char :=
  cs.dropWhile (fun c => c = ' ' || c = '\t' || c = '\n' || c = '\r')

def isNumChar (c : Char) : Bool :=
  c.isDigit || c = '-' || c = '+' || c = '.' || c = 'e' || c = 'E'

/-- JSON string literal body (after the opening quote). -/
def pStringAux (acc : List Char) : List Char → Except String (String × List Char)
  | [] => .error "unexpected end of JSON input"
  | c :: rest =>
    if c = '"' then .ok (String.mk acc.reverse, rest)
    else if c = '\\' then
      match rest with
      | [] => .error "unexpected end of JSON input"
      | e :: rest2 =>
        if e = '"' || e = '\\' || e = '/' then pStringAux (e :: acc) rest2
        else if e = 'n' then pStringAux ('\n' :: acc) rest2
        else if e = 't' then pStringAux ('\t' :: acc) rest2
        else if e = 'r' then pStringAux ('\r' :: acc) rest2
        else if e = 'b' then pStringAux (Char.ofNat 8 :: acc) rest2
        else if e = 'f' then pStringAux (Char.ofNat 12 :: acc) rest2
        else if e = 'u' then
          match rest2 with
          | h1 :: h2 :: h3 :: h4 :: rest3 =>
            if isHexChar h1 && isHexChar h2 && isHexChar h3 && isHexChar h4 then
              pStringAux
                (Char.ofNat (4096 * hexVal h1 + 256 * hexVal h2 + 16 * hexVal h3 + hexVal h4) :: acc)
                rest3
            else .error "invalid unicode escape in string literal"
          | _ => .error "unexpected end of JSON input"
        else .error "invalid escape in string literal"
    else pStringAux (c :: acc) rest

def expectLit (lit : String) (cs : List Char) (v : JVal) : Except String (JVal × List Char) :=
  if cs.take lit.data.length = lit.data then .ok (v, cs.drop lit.data.length)
  else .error "invalid literal in JSON"

mutual

/-- One JSON value (fueled recursive-descent scanner modelling
json.Decoder.Decode into an untyped target; trailing input is not consumed,
as Decode reads a single value). -/
def pVal : Nat → List Char → Except String (JVal × List Char)
  | 0, _ => .error "json: exceeded max nesting"
  | fuel + 1, cs0 =>
    match pSkipWs cs0 with
    | [] => .error "EOF"
    | c :: rest =>
      if c = 'n' then expectLit "ull" rest .jnull
      else if c = 't' then expectLit "rue" rest (.jbool true)
      else if c = 'f' then expectLit "alse" rest (.jbool false)
      else if c = '"' then
        match pStringAux [] rest with
        | .error e => .error e
        | .ok (s, r) => .ok (.jstr s, r)
      else if c = '[' then
        match pSkipWs rest with
        | ']' :: r => .ok (.jarr [], r)
        | r => pArrElems fuel r []
      else if c = lbraceChar then
        match pSkipWs rest with
        | d :: r =>
          if d = rbraceChar then .ok (.jobj [], r)
          else pObjFields fuel (d :: r) []
        | [] => .error "unexpected end of JSON input"
      else if c.isDigit || c = '-' then
        .ok (.jnum true (String.mk ((c :: rest).takeWhile isNumChar)),
             (c :: rest).dropWhile isNumChar)
      else .error "invalid character looking for beginning of value"

def pArrElems : Nat → List Char → List JVal → Except String (JVal × List Char)
  | 0, _, _ => .error "json: exceeded max nesting"
  | fuel + 1, cs, acc =>
    match pVal fuel cs with
    | .error e => .error e
    | .ok (v, rest) =>
      match pSkipWs rest with
      | ',' :: r => pArrElems fuel r (acc ++ [v])
      | ']' :: r => .ok (.jarr (acc ++ [v]), r)
      | _ => .error "invalid character after array element"

def pObjFields : Nat → List Char → List (String × JVal) → Except String (JVal × List Char)
  | 0, _, _ => .error "json: exceeded max nesting"
  | fuel + 1, cs, acc =>
    match pSkipWs cs with
    | '"' :: rest =>
      match pStringAux [] rest with
      | .error e => .error e
      | .ok (k, rest2) =>
        match pSkipWs rest2 with
        | ':' :: rest3 =>
          match pVal fuel rest3 with
          | .error e => .error e
          | .ok (v, rest4) =>
            match pSkipWs rest4 with
            | ',' :: r => pObjFields fuel r (acc ++ [(k, v)])
            | d :: r =>
              if d = rbraceChar then .ok (.jobj (acc ++ [(k, v)]), r)
              else .error "invalid character after object value"
            | [] => .error "unexpected end of JSON input"
        | _ => .error "invalid character after object key"
    | _ => .error "invalid character looking for object key"

end

/-- json.NewDecoder(...).Decode into an untyped value: parse one JSON value
from the body; an empty body yields the EOF error, like the Go decoder. -/
def jsonDecode (body : String) : Except String JVal :=
  match pVal (2 * body.data.length + 8) body.data with
  | .error e => .error e
  | .ok (v, _) => .ok v

/-! ## The Sling builder (src/sling.go) -/

def HEAD : String := "HEAD"
def GET : String := "GET"
def POST : String := "POST"
def PUT : String := "PUT"
def PATCH : String := "PATCH"
def DELETE : String := "DELETE"
def contentType : String := "Content-Type"
def jsonContentType : String := "application/json"
def formContentType : String := "application/x-www-form-urlencoded"

/-- The Sling builder state.  http.Client pointers are opaque, modelled by
numeric identities (`some 0` is http.DefaultClient, `none` a nil field).
jsonBody and bodyStruct are the stored interface values (none = nil). -/
structure Sling where
  httpClient : Option Nat
  method : String
  rawUrl : String
  header : Header
  queryStructs : List QueryStruct
  jsonBody : Option JVal
  bodyStruct : Option QueryStruct
  safeMode : Bool
deriving Repr

/-- sling.New(): fresh builder with the default client and empty state. -/
def New : Sling :=
  { httpClient := some 0, method := "", rawUrl := "", header := [],
    queryStructs := [], jsonBody := none, bodyStruct := none, safeMode := false }

/-- (*Sling).New(): copy every field (header map and queryStructs slice are
copied; at the value level the copy is equal to the original — the aliasing
consequences are modelled separately by the heap embedding below). -/
def Sling.New (s : Sling) : Sling :=
  { httpClient := s.httpClient, method := s.method, rawUrl := s.rawUrl,
    header := s.header, queryStructs := s.queryStructs,
    jsonBody := s.jsonBody, bodyStruct := s.bodyStruct, safeMode := s.safeMode }

/-- (*Sling).Safely(). -/
def Sling.Safely (s : Sling) : Sling :=
  { s.New with safeMode := true }

/-- (*Sling).safely(): copy if safeMode, else the receiver itself. -/
def Sling.safely (s : Sling) : Sling :=
  if s.safeMode then s.New else s

/-- (*Sling).Client. -/
def Sling.Client (orig : Sling) (httpClient : Option Nat) : Sling :=
  let s := orig.safely
  match httpClient with
  | none => { s with httpClient := some 0 }
  | some c => { s with httpClient := some c }

/-- (*Sling).Base. -/
def Sling.Base (orig : Sling) (rawURL : String) : Sling :=
  let s := orig.safely
  { s with rawUrl := rawURL }

/-- (*Sling).Path: extend RawUrl by URI reference resolution; on a parse
error of either operand the builder is returned unchanged. -/
def Sling.Path (orig : Sling) (path : String) : Sling :=
  let s := orig.safely
  match urlParse s.rawUrl, urlParse path with
  | .ok baseURL, .ok pathURL =>
    { s with rawUrl := URL.string (baseURL.resolveReference pathURL) }
  | _, _ => s

/-- (*Sling).Head. -/
def Sling.Head (orig : Sling) (pathURL : String) : Sling :=
  let s := orig.safely
  Sling.Path { s with method := HEAD } pathURL

/-- (*Sling).Get. -/
def Sling.Get (orig : Sling) (pathURL : String) : Sling :=
  let s := orig.safely
  Sling.Path { s with method := GET } pathURL

/-- (*Sling).Post. -/
def Sling.Post (orig : Sling) (pathURL : String) : Sling :=
  let s := orig.safely
  Sling.Path { s with method := POST } pathURL

/-- (*Sling).Put. -/
def Sling.Put (orig : Sling) (pathURL : String) : Sling :=
  let s := orig.safely
  Sling.Path { s with method := PUT } pathURL

/-- (*Sling).Patch. -/
def Sling.Patch (orig : Sling) (pathURL : String) : Sling :=
  let s := orig.safely
  Sling.Path { s with method := PATCH } pathURL

/-- (*Sling).Delete. -/
def Sling.Delete (orig : Sling) (pathURL : String) : Sling :=
  let s := orig.safely
  Sling.Path { s with method := DELETE } pathURL

/-- (*Sling).Add: append a header value. -/
def Sling.Add (orig : Sling) (key value : String) : Sling :=
  let s := orig.safely
  { s with header := headerAdd s.header key value }

/-- (*Sling).Set: replace a header value. -/
def Sling.Set (orig : Sling) (key value : String) : Sling :=
  let s := orig.safely
  { s with header := headerSet s.header key value }

/-- (*Sling).QueryStruct: append unless nil. -/
def Sling.QueryStruct (orig : Sling) (queryStruct : Option QueryStruct) : Sling :=
  let s := orig.safely
  match queryStruct with
  | none => s
  | some q => { s with queryStructs := s.queryStructs ++ [q] }

/-- (*Sling).JsonBody: nil is a no-op; otherwise store the payload and call
s.Set(contentType, jsonContentType), discarding the call result as the Go
code does.  With safeMode off the inner Set mutates s itself, so the header
update is visible on the returned builder; with safeMode on the inner Set
mutates a fresh defensive copy that is thrown away, so the returned
builder's headers are unchanged. -/
def Sling.JsonBody (orig : Sling) (jsonBody : Option JVal) : Sling :=
  let s := orig.safely
  match jsonBody with
  | none => s
  | some _ =>
    let s := { s with jsonBody := jsonBody }
    if s.safeMode then s
    else Sling.Set s contentType jsonContentType

/-- (*Sling).BodyStruct: nil is a no-op; otherwise store the payload and call
s.Set(contentType, formContentType), discarding the call result as the Go
code does (same visibility as in JsonBody: the header update reaches the
returned builder only when safeMode is off). -/
def Sling.BodyStruct (orig : Sling) (bodyStruct : Option SlingModel.QueryStruct) : Sling :=
  let s := orig.safely
  match bodyStruct with
  | none => s
  | some _ =>
    let s := { s with bodyStruct := bodyStruct }
    if s.safeMode then s
    else Sling.Set s contentType formContentType

/-! ## Building requests -/

/-- encodeJSONBody from src/sling.go: a nil value encodes to an empty buffer,
otherwise json-encode (the Go Encoder appends a newline). -/
def encodeJSONBody (jsonBody : Option JVal) : Except String String :=
  match jsonBody with
  | none => .ok ""
  | some v =>
    match marshalJVal v with
    | .error e => .error e
    | .ok bytes => .ok (bytes ++ "\n")

/-- encodeBodyStruct from src/sling.go: flatten with goquery.Values and
url-encode. -/
def encodeBodyStruct (bodyStruct : QueryStruct) : Except String String :=
  match goqueryValues bodyStruct with
  | .error e => .error e
  | .ok values => .ok (valuesEncode values)

/-- getRequestBody from src/sling.go: the JSON payload is encoded only when
the Content-Type header is the JSON media type, the form payload only when it
is the form media type; otherwise the body reader stays nil (none). -/
def Sling.getRequestBody (orig : Sling) : Except String (Option String) :=
  let s := orig.safely
  if s.jsonBody.isSome ∧ headerGet s.header contentType = jsonContentType then
    match encodeJSONBody s.jsonBody with
    | .error e => .error e
    | .ok bytes => .ok (some bytes)
  else if s.bodyStruct.isSome ∧ headerGet s.header contentType = formContentType then
    match s.bodyStruct with
    | some b =>
      match encodeBodyStruct b with
      | .error e => .error e
      | .ok bytes => .ok (some bytes)
    | none => .ok none
  else .ok none

/-- The produced http.Request: method, parsed URL, optional body bytes,
header multimap. -/
structure HTTPRequest where
  method : String
  url : URL
  body : Option String
  header : Header
deriving Repr, DecidableEq

/-- Valid HTTP method per net/http validMethod (token characters only). -/
def validMethod (m : String) : Bool :=
  m ≠ "" && m.data.all isTokenChar

/-- Model of http.NewRequest: default empty method to GET, validate it, parse
the URL, attach the body. -/
def httpNewRequest (method urlStr : String) (body : Option String) :
    Except String HTTPRequest :=
  let method := if method = "" then "GET" else method
  if !validMethod method then .error ("net/http: invalid method " ++ method)
  else
    match urlParse urlStr with
    | .error e => .error e
    | .ok u => .ok { method := method, url := u, body := body, header := [] }

/-- addHeaders from src/sling.go: Add every stored pair onto the request. -/
def addHeaders (req : HTTPRequest) (header : Header) : HTTPRequest :=
  { req with
    header := header.foldl
      (fun h kv => kv.2.foldl (fun h v => headerAdd h kv.1 v) h) req.header }

/-- (*Sling).Request: parse the accumulated URL, merge query structs, encode
the body, build the http.Request, copy headers onto it.  Any error aborts
with no request value (the Go code returns (nil, err)). -/
def Sling.Request (orig : Sling) : Except String HTTPRequest :=
  let s := orig.safely
  match urlParse s.rawUrl with
  | .error e => .error e
  | .ok reqURL =>
    match addQueryStructs reqURL s.queryStructs with
    | .error e => .error e
    | .ok reqURL =>
      match s.getRequestBody with
      | .error e => .error e
      | .ok body =>
        match httpNewRequest s.method (URL.string reqURL) body with
        | .error e => .error e
        | .ok req => .ok (addHeaders req s.header)

/-! ## Sending requests -/

/-- The consumed http.Response: status, headers, body stream contents. -/
structure HTTPResponse where
  statusCode : Nat
  header : Header
  body : String
deriving Repr, DecidableEq

/-- Observable outcome of (*Sling).Do: the returned response and error, and
whether the response body stream was closed. -/
structure DoOutcome where
  resp : Option HTTPResponse
  err : Option String
  bodyClosed : Bool
deriving Repr, DecidableEq

/-- decodeResponse from src/sling.go: JSON-decode the response body (the
decode target is untyped here, so decoding succeeds exactly when the body
parses as JSON). -/
def decodeResponse (resp : HTTPResponse) : Except String JVal :=
  jsonDecode resp.body

/-- (*Sling).Do.  The network round trip is the injected transport outcome
(the result of s.HttpClient.Do): on transport error it is returned at once
with no body to close; on success the body is always closed and the response
body is decoded only when the target v is non-nil. -/
def Sling.Do (orig : Sling) (transport : Except String HTTPResponse)
    (v : Option Unit) : DoOutcome :=
  let _s := orig.safely
  match transport with
  | .error e => { resp := none, err := some e, bodyClosed := false }
  | .ok resp =>
    match v with
    | none => { resp := some resp, err := none, bodyClosed := true }
    | some _ =>
      match decodeResponse resp with
      | .ok _ => { resp := some resp, err := none, bodyClosed := true }
      | .error e => { resp := some resp, err := some e, bodyClosed := true }

/-- (*Sling).Receive: Request then Do; a build error is returned with no
response and nothing sent. -/
def Sling.Receive (orig : Sling) (transport : Except String HTTPResponse)
    (v : Option Unit) : DoOutcome :=
  match orig.Request with
  | .error e => { resp := none, err := some e, bodyClosed := false }
  | .ok _ => orig.Do transport v

/-! ## Heap embedding of builder objects

In Go the Sling's Header map and queryStructs slice are reference values: a
child created by (*Sling).New would share them with its parent unless New
copied them.  To state the isolation property the mutable collections live in
an explicit heap of cells and a builder object holds cell references; the
operations below mirror the same source code as the functional model, writing
through the references. -/

structure HeapState where
  headerCells : List Header
  queryCells : List (List QueryStruct)
deriving Repr, DecidableEq

/-- A Sling object whose Header map and queryStructs slice are heap refs. -/
structure SlingObj where
  httpClient : Option Nat
  method : String
  rawUrl : String
  headerRef : Nat
  queryRef : Nat
  jsonBody : Option JVal
  bodyStruct : Option QueryStruct
  safeMode : Bool
deriving Repr

def readHeaderCell (h : HeapState) (r : Nat) : Header :=
  h.headerCells.getD r []

def readQueryCell (h : HeapState) (r : Nat) : List QueryStruct :=
  h.queryCells.getD r []

def writeHeaderCell (h : HeapState) (r : Nat) (v : Header) : HeapState :=
  { h with headerCells := h.headerCells.set r v }

def writeQueryCell (h : HeapState) (r : Nat) (v : List QueryStruct) : HeapState :=
  { h with queryCells := h.queryCells.set r v }

def allocHeaderCell (h : HeapState) (v : Header) : HeapState × Nat :=
  ({ h with headerCells := h.headerCells ++ [v] }, h.headerCells.length)

def allocQueryCell (h : HeapState) (v : List QueryStruct) : HeapState × Nat :=
  ({ h with queryCells := h.queryCells ++ [v] }, h.queryCells.length)

/-- The builder's references point into the heap. -/
def validRefs (h : HeapState) (s : SlingObj) : Prop :=
  s.headerRef < h.headerCells.length ∧ s.queryRef < h.queryCells.length

/-- (*Sling).New in the heap embedding: copy the header map and the
queryStructs slice into fresh cells; plain fields (method, RawUrl, jsonBody,
bodyStruct, client pointer, safeMode) are copied by value. -/
def SlingObj.newObj (s : SlingObj) (h : HeapState) : HeapState × SlingObj :=
  let (h1, hr) := allocHeaderCell h (readHeaderCell h s.headerRef)
  let (h2, qr) := allocQueryCell h1 (readQueryCell h1 s.queryRef)
  (h2, { s with headerRef := hr, queryRef := qr })

/-- (*Sling).safely in the heap embedding. -/
def SlingObj.safelyObj (s : SlingObj) (h : HeapState) : HeapState × SlingObj :=
  if s.safeMode then s.newObj h else (h, s)

/-- The mutating builder operations whose frame effects claim C1 is about,
plus the other setters that touch only plain fields. -/
inductive BuilderOp where
  | addH (key value : String)
  | setH (key value : String)
  | queryS (q : Option QueryStruct)
  | jsonB (j : Option JVal)
  | bodyS (b : Option QueryStruct)
  | baseU (raw : String)
  | clientC (c : Option Nat)
deriving Repr

/-- Apply one builder operation to an object, mirroring the Go setters:
Add/Set write the object's header cell, QueryStruct appends to its query
cell, JsonBody/BodyStruct set the plain field and write the Content-Type
header into the header cell, Base/Client update plain fields. -/
def applyOp (h0 : HeapState) (s0 : SlingObj) : BuilderOp → HeapState × SlingObj
  | .addH key value =>
    let (h, s) := s0.safelyObj h0
    (writeHeaderCell h s.headerRef (headerAdd (readHeaderCell h s.headerRef) key value), s)
  | .setH key value =>
    let (h, s) := s0.safelyObj h0
    (writeHeaderCell h s.headerRef (headerSet (readHeaderCell h s.headerRef) key value), s)
  | .queryS none => s0.safelyObj h0
  | .queryS (some q) =>
    let (h, s) := s0.safelyObj h0
    (writeQueryCell h s.queryRef (readQueryCell h s.queryRef ++ [q]), s)
  | .jsonB none => s0.safelyObj h0
  | .jsonB (some j) =>
    let (h, s) := s0.safelyObj h0
    (writeHeaderCell h s.headerRef (headerSet (readHeaderCell h s.headerRef) contentType jsonContentType),
     { s with jsonBody := some j })
  | .bodyS none => s0.safelyObj h0
  | .bodyS (some b) =>
    let (h, s) := s0.safelyObj h0
    (writeHeaderCell h s.headerRef (headerSet (readHeaderCell h s.headerRef) contentType formContentType),
     { s with bodyStruct := some b })
  | .baseU raw =>
    let (h, s) := s0.safelyObj h0
    (h, { s with rawUrl := raw })
  | .clientC none =>
    let (h, s) := s0.safelyObj h0
    (h, { s with httpClient := some 0 })
  | .clientC (some c) =>
    let (h, s) := s0.safelyObj h0
    (h, { s with httpClient := some c })

/-- Apply a sequence of builder operations left to right. -/
def applyOps (h : HeapState) (s : SlingObj) : List BuilderOp → HeapState × SlingObj
  | [] => (h, s)
  | op :: ops =>
    let (h1, s1) := applyOp h s op
    applyOps h1 s1 ops

/-! ## Supporting lemmas -/

/-- The value-level copy made by (*Sling).New equals the original. -/
theorem Sling.New_eq (s : Sling) : s.New = s := rfl

/-- safely is the identity at the value level (in safe mode it returns the
copy, which is value-equal). -/
theorem Sling.safely_eq (s : Sling) : s.safely = s := by
  unfold Sling.safely
  rw [Sling.New_eq]
  exact ite_self s

theorem assocGet_assocSet_self (h : Values) (k : String) (vs : List String) :
    assocGet (assocSet h k vs) k = vs := by
  induction h with
  | nil => simp [assocSet, assocGet]
  | cons kv rest ih =>
    obtain ⟨k', vs'⟩ := kv
    by_cases hk : k' = k
    · simp [assocSet, assocGet, hk]
    · simp [assocSet, assocGet, hk, ih]

theorem assocGet_assocAdd_self (h : Values) (k : String) (v : String) :
    assocGet (assocAdd h k v) k = assocGet h k ++ [v] := by
  induction h with
  | nil => simp [assocAdd, assocGet]
  | cons kv rest ih =>
    obtain ⟨k', vs'⟩ := kv
    by_cases hk : k' = k
    · simp [assocAdd, assocGet, hk]
    · simp [assocAdd, assocGet, hk, ih]

theorem assocGet_assocAdd_ne (h : Values) (k k' : String) (v : String)
    (hne : k ≠ k') : assocGet (assocAdd h k v) k' = assocGet h k' := by
  induction h with
  | nil => simp [assocAdd, assocGet, hne]
  | cons kv rest ih =>
    obtain ⟨k0, vs0⟩ := kv
    by_cases hk : k0 = k
    · subst hk
      simp [assocAdd, assocGet, hne]
    · simp [assocAdd, assocGet, hk, ih]

/-- Adding a run of values for one key: lookups at that key gain the run,
lookups at other keys are unchanged. -/
theorem assocGet_addRun (k0 : String) (vs : List String) (uv : Values) (k : String) :
    assocGet (vs.foldl (fun uv v => assocAdd uv k0 v) uv) k
      = assocGet uv k ++ (if k0 = k then vs else []) := by
  induction vs generalizing uv with
  | nil => simp
  | cons v rest ih =>
    by_cases hk : k0 = k
    · subst hk
      simp [List.foldl_cons, ih, assocGet_assocAdd_self]
    · simp [List.foldl_cons, ih, hk, assocGet_assocAdd_ne _ _ _ _ hk]

/-- The values contributed for key k by a flattened struct's pair list. -/
def pairsFor (pairs : List (String × List String)) (k : String) : List String :=
  pairs.foldr (fun kv acc => (if kv.1 = k then kv.2 else []) ++ acc) []

/-- Merging a flattened struct is additive on every key: the pre-existing
values stay in place and the struct's values for the key are appended. -/
theorem assocGet_addPairs (uv : Values) (pairs : List (String × List String))
    (k : String) :
    assocGet (addPairs uv pairs) k = assocGet uv k ++ pairsFor pairs k := by
  induction pairs generalizing uv with
  | nil => simp [addPairs, pairsFor]
  | cons kv rest ih =>
    have hstep : addPairs uv (kv :: rest)
        = addPairs (kv.2.foldl (fun uv v => assocAdd uv kv.1 v) uv) rest := rfl
    rw [hstep, ih, assocGet_addRun]
    simp [pairsFor, List.append_assoc]

/-! ### Heap frame lemmas -/

theorem getD_set_ne {α : Type} (l : List α) (i j : Nat) (v d : α) (hne : j ≠ i) :
    (l.set i v).getD j d = l.getD j d := by
  induction l generalizing i j with
  | nil => simp [List.set]
  | cons x xs ih =>
    cases i with
    | zero =>
      cases j with
      | zero => exact absurd rfl hne
      | succ j' => simp [List.set, List.getD]
    | succ i' =>
      cases j with
      | zero => simp [List.set, List.getD]
      | succ j' =>
        simp only [List.set, List.getD_cons_succ]
        exact ih i' j' (fun h => hne (congrArg Nat.succ h))

theorem getD_append_left {α : Type} (l l2 : List α) (j : Nat) (d : α)
    (hj : j < l.length) : (l ++ l2).getD j d = l.getD j d := by
  induction l generalizing j with
  | nil => exact absurd hj (Nat.not_lt_zero j)
  | cons x xs ih =>
    cases j with
    | zero => simp [List.getD]
    | succ j' =>
      simp only [List.cons_append, List.getD_cons_succ]
      exact ih j' (Nat.lt_of_succ_lt_succ hj)

/-- The frame facts tracked while a different builder object mutates: the
observed cells are live, distinct from the object's own cells, and their
contents are preserved. -/
def framePred (h : HeapState) (s : SlingObj) (rh rq : Nat) : Prop :=
  rh < h.headerCells.length ∧ rq < h.queryCells.length ∧
  rh ≠ s.headerRef ∧ rq ≠ s.queryRef

theorem safelyObj_frame (h : HeapState) (s : SlingObj) (rh rq : Nat)
    (hf : framePred h s rh rq) :
    framePred (s.safelyObj h).1 (s.safelyObj h).2 rh rq ∧
    readHeaderCell (s.safelyObj h).1 rh = readHeaderCell h rh ∧
    readQueryCell (s.safelyObj h).1 rq = readQueryCell h rq := by
  obtain ⟨h1, h2, h3, h4⟩ := hf
  unfold SlingObj.safelyObj
  by_cases hs : s.safeMode
  · simp only [hs, if_true]
    unfold SlingObj.newObj allocHeaderCell allocQueryCell
    simp only
    refine ⟨⟨?_, ?_, ?_, ?_⟩, ?_, ?_⟩
    · simpa using Nat.lt_succ_of_lt h1
    · simpa using Nat.lt_succ_of_lt h2
    · exact fun hEq => absurd hEq (Nat.ne_of_lt h1)
    · exact fun hEq => absurd hEq (Nat.ne_of_lt h2)
    · exact getD_append_left _ _ _ _ h1
    · exact getD_append_left _ _ _ _ h2
  · simp [hs, framePred, h1, h2, h3, h4]

theorem write_frame_header (h : HeapState) (r : Nat) (v : Header) (rh rq : Nat)
    (hne : rh ≠ r) (h1 : rh < h.headerCells.length) (h2 : rq < h.queryCells.length) :
    readHeaderCell (writeHeaderCell h r v) rh = readHeaderCell h rh ∧
    readQueryCell (writeHeaderCell h r v) rq = readQueryCell h rq ∧
    rh < (writeHeaderCell h r v).headerCells.length ∧
    rq < (writeHeaderCell h r v).queryCells.length := by
  refine ⟨?_, rfl, ?_, h2⟩
  · exact getD_set_ne _ _ _ _ _ hne
  · simpa [writeHeaderCell, List.length_set] using h1

theorem write_frame_query (h : HeapState) (r : Nat) (v : List QueryStruct) (rh rq : Nat)
    (hne : rq ≠ r) (h1 : rh < h.headerCells.length) (h2 : rq < h.queryCells.length) :
    readHeaderCell (writeQueryCell h r v) rh = readHeaderCell h rh ∧
    readQueryCell (writeQueryCell h r v) rq = readQueryCell h rq ∧
    rh < (writeQueryCell h r v).headerCells.length ∧
    rq < (writeQueryCell h r v).queryCells.length := by
  refine ⟨rfl, ?_, h1, ?_⟩
  · exact getD_set_ne _ _ _ _ _ hne
  · simpa [writeQueryCell, List.length_set] using h2

theorem applyOp_frame (h : HeapState) (s : SlingObj) (op : BuilderOp)
    (rh rq : Nat) (hf : framePred h s rh rq) :
    framePred (applyOp h s op).1 (applyOp h s op).2 rh rq ∧
    readHeaderCell (applyOp h s op).1 rh = readHeaderCell h rh ∧
    readQueryCell (applyOp h s op).1 rq = readQueryCell h rq := by
  obtain ⟨⟨f1, f2, f3, f4⟩, e1, e2⟩ := safelyObj_frame h s rh rq hf
  cases op with
  | addH key value =>
    have hw := write_frame_header (s.safelyObj h).1 (s.safelyObj h).2.headerRef
      (headerAdd (readHeaderCell (s.safelyObj h).1 (s.safelyObj h).2.headerRef) key value)
      rh rq f3 f1 f2
    exact ⟨⟨hw.2.2.1, hw.2.2.2, f3, f4⟩, hw.1.trans e1, hw.2.1.trans e2⟩
  | setH key value =>
    have hw := write_frame_header (s.safelyObj h).1 (s.safelyObj h).2.headerRef
      (headerSet (readHeaderCell (s.safelyObj h).1 (s.safelyObj h).2.headerRef) key value)
      rh rq f3 f1 f2
    exact ⟨⟨hw.2.2.1, hw.2.2.2, f3, f4⟩, hw.1.trans e1, hw.2.1.trans e2⟩
  | queryS q =>
    cases q with
    | none => exact ⟨⟨f1, f2, f3, f4⟩, e1, e2⟩
    | some q0 =>
      have hw := write_frame_query (s.safelyObj h).1 (s.safelyObj h).2.queryRef
        (readQueryCell (s.safelyObj h).1 (s.safelyObj h).2.queryRef ++ [q0])
        rh rq f4 f1 f2
      exact ⟨⟨hw.2.2.1, hw.2.2.2, f3, f4⟩, hw.1.trans e1, hw.2.1.trans e2⟩
  | jsonB j =>
    cases j with
    | none => exact ⟨⟨f1, f2, f3, f4⟩, e1, e2⟩
    | some j0 =>
      have hw := write_frame_header (s.safelyObj h).1 (s.safelyObj h).2.headerRef
        (headerSet (readHeaderCell (s.safelyObj h).1 (s.safelyObj h).2.headerRef)
          contentType jsonContentType)
        rh rq f3 f1 f2
      exact ⟨⟨hw.2.2.1, hw.2.2.2, f3, f4⟩, hw.1.trans e1, hw.2.1.trans e2⟩
  | bodyS b =>
    cases b with
    | none => exact ⟨⟨f1, f2, f3, f4⟩, e1, e2⟩
    | some b0 =>
      have hw := write_frame_header (s.safelyObj h).1 (s.safelyObj h).2.headerRef
        (headerSet (readHeaderCell (s.safelyObj h).1 (s.safelyObj h).2.headerRef)
          contentType formContentType)
        rh rq f3 f1 f2
      exact ⟨⟨hw.2.2.1, hw.2.2.2, f3, f4⟩, hw.1.trans e1, hw.2.1.trans e2⟩
  | baseU raw => exact ⟨⟨f1, f2, f3, f4⟩, e1, e2⟩
  | clientC c =>
    cases c with
    | none => exact ⟨⟨f1, f2, f3, f4⟩, e1, e2⟩
    | some c0 => exact ⟨⟨f1, f2, f3, f4⟩, e1, e2⟩

theorem applyOps_frame (ops : List BuilderOp) (h : HeapState) (s : SlingObj)
    (rh rq : Nat) (hf : framePred h s rh rq) :
    framePred (applyOps h s ops).1 (applyOps h s ops).2 rh rq ∧
    readHeaderCell (applyOps h s ops).1 rh = readHeaderCell h rh ∧
    readQueryCell (applyOps h s ops).1 rq = readQueryCell h rq := by
  induction ops generalizing h s with
  | nil => exact ⟨hf, rfl, rfl⟩
  | cons op rest ih =>
    obtain ⟨hf1, he1, he2⟩ := applyOp_frame h s op rh rq hf
    obtain ⟨hf2, he3, he4⟩ := ih (applyOp h s op).1 (applyOp h s op).2 hf1
    refine ⟨?_, ?_, ?_⟩
    · simpa [applyOps] using hf2
    · calc readHeaderCell (applyOps h s (op :: rest)).1 rh
          = readHeaderCell (applyOps (applyOp h s op).1 (applyOp h s op).2 rest).1 rh := rfl
        _ = readHeaderCell (applyOp h s op).1 rh := he3
        _ = readHeaderCell h rh := he1
    · calc readQueryCell (applyOps h s (op :: rest)).1 rq
          = readQueryCell (applyOps (applyOp h s op).1 (applyOp h s op).2 rest).1 rq := rfl
        _ = readQueryCell (applyOp h s op).1 rq := he4
        _ = readQueryCell h rq := he2

/-! ### Path and header lemmas -/

/-- When both operands parse, Path replaces RawUrl with the resolved
reference and changes nothing else. -/
theorem Sling.Path_eq (t : Sling) (p : String) (u r : URL)
    (hu : urlParse t.rawUrl = .ok u) (hr : urlParse p = .ok r) :
    t.Path p = { t with rawUrl := URL.string (u.resolveReference r) } := by
  simp only [Sling.Path, Sling.safely_eq]
  rw [hu, hr]

/-- Path never changes the method. -/
theorem Sling.Path_method (t : Sling) (p : String) :
    (t.Path p).method = t.method := by
  simp only [Sling.Path, Sling.safely_eq]
  cases h1 : urlParse t.rawUrl <;> cases h2 : urlParse p <;> rfl

theorem Sling.Get_eq (s : Sling) (p : String) :
    s.Get p = Sling.Path { s with method := GET } p := by
  unfold Sling.Get
  rw [Sling.safely_eq]

theorem Sling.Post_eq (s : Sling) (p : String) :
    s.Post p = Sling.Path { s with method := POST } p := by
  unfold Sling.Post
  rw [Sling.safely_eq]

/-- On any builder whose accumulated URL is "http://a", Post with the
absolute URL "http://b" replaces the accumulated URL entirely. -/
theorem Sling.post_httpb (t : Sling) (ht : t.rawUrl = "http://a") :
    (t.Post "http://b").rawUrl = "http://b" := by
  rw [Sling.Post_eq]
  have hu : urlParse ({ t with method := POST } : Sling).rawUrl
      = .ok { scheme := "http", host := "a" } := by
    show urlParse t.rawUrl = _
    rw [ht]; rfl
  rw [Sling.Path_eq { t with method := POST } "http://b" { scheme := "http", host := "a" }
    { scheme := "http", host := "b" } hu rfl]
  rfl

theorem headerGet_headerSet_self (h : Header) (k v : String) :
    headerGet (headerSet h k v) k = v := by
  unfold headerGet headerSet
  rw [assocGet_assocSet_self]
  rfl

/-! ## The claims -/

/-- C2: Path follows standard URI reference resolution against the
accumulated URL: with base "http://a/x/" the relative argument "y" yields
"http://a/x/y"; with base "http://a/x" (no trailing slash) it yields
"http://a/y" (the last segment is replaced); and an absolute-URL argument
replaces the accumulated URL entirely ("http://a" extended with "http://b"
yields "http://b"). -/
theorem path_reference_resolution :
    (∀ s : Sling, s.rawUrl = "http://a/x/" → (s.Path "y").rawUrl = "http://a/x/y") ∧
    (∀ s : Sling, s.rawUrl = "http://a/x" → (s.Path "y").rawUrl = "http://a/y") ∧
    (∀ s : Sling, s.rawUrl = "http://a" → (s.Path "http://b").rawUrl = "http://b") := by
  refine ⟨?_, ?_, ?_⟩
  · intro s hs
    have hu : urlParse s.rawUrl = .ok { scheme := "http", host := "a", path := "/x/" } := by
      rw [hs]; rfl
    rw [Sling.Path_eq s "y" _ { path := "y" } hu rfl]
    rfl
  · intro s hs
    have hu : urlParse s.rawUrl = .ok { scheme := "http", host := "a", path := "/x" } := by
      rw [hs]; rfl
    rw [Sling.Path_eq s "y" _ { path := "y" } hu rfl]
    rfl
  · intro s hs
    have hu : urlParse s.rawUrl = .ok { scheme := "http", host := "a" } := by
      rw [hs]; rfl
    rw [Sling.Path_eq s "http://b" _ { scheme := "http", host := "b" } hu rfl]
    rfl

/-- Witness for C2 at concrete builders. -/
theorem path_reference_resolution_witness :
    ((SlingModel.New.Base "http://a/x/").Path "y").rawUrl = "http://a/x/y" ∧
    ((SlingModel.New.Base "http://a/x").Path "y").rawUrl = "http://a/y" ∧
    ((SlingModel.New.Base "http://a").Path "http://b").rawUrl = "http://b" :=
  ⟨path_reference_resolution.1 _ rfl,
   path_reference_resolution.2.1 _ rfl,
   path_reference_resolution.2.2 _ rfl⟩

/-- C8: when either the accumulated URL or the path argument fails to parse,
Path is a silent no-op: the whole builder (accumulated URL and every other
field) is returned unchanged and no error is surfaced. -/
theorem path_parse_failure_noop :
    ∀ (s : Sling) (path : String),
      ((∃ e, urlParse s.rawUrl = .error e) ∨ (∃ e, urlParse path = .error e)) →
      s.Path path = s := by
  intro s path h
  simp only [Sling.Path, Sling.safely_eq]
  rcases h with ⟨e, he⟩ | ⟨e, he⟩
  · rw [he]
  · rw [he]
    cases hb : urlParse s.rawUrl <;> rfl

/-- Witness for C8: a control character makes the base unparsable and the
call leaves the builder untouched. -/
theorem path_parse_failure_noop_witness :
    (SlingModel.New.Base "\x7f").Path "y" = SlingModel.New.Base "\x7f" :=
  path_parse_failure_noop _ "y"
    (Or.inl ⟨"net/url: invalid control character in URL", rfl⟩)

/-- C9 counterexample: the claim quantifies over every builder, but on a
builder whose accumulated URL does not parse (here "\x7f", rejected for its
control character) Get("http://a").Post("http://b") leaves the old RawUrl in
place, so the resulting URL is not "http://b". -/
theorem verb_setters_last_wins_counterexample :
    ¬ ((({ SlingModel.New with rawUrl := "\x7f" }.Get "http://a").Post "http://b").method = POST ∧
       (({ SlingModel.New with rawUrl := "\x7f" }.Get "http://a").Post "http://b").rawUrl = "http://b") := by
  intro ⟨_, h⟩
  exact absurd h (by decide)

/-- C9 (amended): calling two verb setters in sequence leaves the second
call's method in effect on every builder, and leaves the second call's URL in
effect on every builder whose accumulated URL parses. -/
theorem verb_setters_last_wins_amended :
    ∀ s : Sling,
      ((s.Get "http://a").Post "http://b").method = POST ∧
      (∀ u : URL, urlParse s.rawUrl = .ok u →
        ((s.Get "http://a").Post "http://b").rawUrl = "http://b") := by
  intro s
  constructor
  · rw [Sling.Post_eq, Sling.Path_method]
  · intro u hu
    have habs : URL.string (u.resolveReference { scheme := "http", host := "a" })
        = "http://a" := rfl
    apply Sling.post_httpb
    rw [Sling.Get_eq]
    rw [Sling.Path_eq { s with method := GET } "http://a" u { scheme := "http", host := "a" }
      hu rfl]
    exact habs

/-- Witness for C9 (amended) on a fresh builder. -/
theorem verb_setters_last_wins_amended_witness :
    ((SlingModel.New.Get "http://a").Post "http://b").method = POST ∧
    ((SlingModel.New.Get "http://a").Post "http://b").rawUrl = "http://b" :=
  ⟨(verb_setters_last_wins_amended SlingModel.New).1,
   (verb_setters_last_wins_amended SlingModel.New).2 { } rfl⟩

/-- C4 counterexample: the claim asserts that a non-nil payload sets the
Content-Type header on the returned builder for every builder, but the Go
code discards the result of the inner s.Set call; on a safe-mode builder
(here sling.New().Safely()) that Set mutates a thrown-away defensive copy,
so the returned builder has no Content-Type header at all. -/
theorem body_setters_content_type_counterexample :
    ¬ headerGet ((SlingModel.New.Safely.JsonBody (some (JVal.jstr "x"))).header)
        contentType = jsonContentType := by
  decide

/-- C4 (amended): JsonBody and BodyStruct with a nil payload are no-ops
preserving the whole builder (body payload and Content-Type header
included); with a non-nil payload they replace the stored payload on every
builder, and they set the Content-Type header of the returned builder to the
JSON respectively form media type whenever the builder is not in safe mode —
in safe mode the header update lands on a discarded defensive copy and the
returned builder's headers are unchanged. -/
theorem body_setters_nil_noop_nonnil_sets_amended :
    (∀ s : Sling, s.JsonBody none = s) ∧
    (∀ s : Sling, s.BodyStruct none = s) ∧
    (∀ (s : Sling) (j : JVal),
      (s.JsonBody (some j)).jsonBody = some j ∧
      (s.safeMode = false →
        headerGet (s.JsonBody (some j)).header contentType = jsonContentType) ∧
      (s.safeMode = true → (s.JsonBody (some j)).header = s.header)) ∧
    (∀ (s : Sling) (b : QueryStruct),
      (s.BodyStruct (some b)).bodyStruct = some b ∧
      (s.safeMode = false →
        headerGet (s.BodyStruct (some b)).header contentType = formContentType) ∧
      (s.safeMode = true → (s.BodyStruct (some b)).header = s.header)) := by
  refine ⟨?_, ?_, ?_, ?_⟩
  · exact fun s => Sling.safely_eq s
  · exact fun s => Sling.safely_eq s
  · intro s j
    by_cases hs : s.safeMode = true
    · have h1 : s.JsonBody (some j) = { s with jsonBody := some j } := by
        simp only [Sling.JsonBody, Sling.safely_eq]
        rw [if_pos hs]
      rw [h1]
      refine ⟨rfl, ?_, fun _ => rfl⟩
      intro hfalse
      rw [hs] at hfalse
      exact absurd hfalse (by simp)
    · have h1 : s.JsonBody (some j)
          = { s with jsonBody := some j,
                     header := headerSet s.header contentType jsonContentType } := by
        simp only [Sling.JsonBody, Sling.Set, Sling.safely_eq]
        rw [if_neg hs]
      rw [h1]
      exact ⟨rfl,
        fun _ => headerGet_headerSet_self s.header contentType jsonContentType,
        fun htrue => absurd htrue hs⟩
  · intro s b
    by_cases hs : s.safeMode = true
    · have h1 : s.BodyStruct (some b) = { s with bodyStruct := some b } := by
        simp only [Sling.BodyStruct, Sling.safely_eq]
        rw [if_pos hs]
      rw [h1]
      refine ⟨rfl, ?_, fun _ => rfl⟩
      intro hfalse
      rw [hs] at hfalse
      exact absurd hfalse (by simp)
    · have h1 : s.BodyStruct (some b)
          = { s with bodyStruct := some b,
                     header := headerSet s.header contentType formContentType } := by
        simp only [Sling.BodyStruct, Sling.Set, Sling.safely_eq]
        rw [if_neg hs]
      rw [h1]
      exact ⟨rfl,
        fun _ => headerGet_headerSet_self s.header contentType formContentType,
        fun htrue => absurd htrue hs⟩

/-- Witness for C4 (amended): on a fresh (in-place) builder the header is
set; on a Safely builder the payload is stored but the headers stay
unchanged. -/
theorem body_setters_nil_noop_nonnil_sets_amended_witness :
    (headerGet ((SlingModel.New.JsonBody (some (JVal.jstr "x"))).header) contentType
      = jsonContentType) ∧
    (headerGet ((SlingModel.New.BodyStruct (some (QueryStruct.flat [("f", ["1"])]))).header)
        contentType = formContentType) ∧
    ((SlingModel.New.Safely.JsonBody (some (JVal.jstr "x"))).jsonBody
      = some (JVal.jstr "x")) ∧
    ((SlingModel.New.Safely.JsonBody (some (JVal.jstr "x"))).header
      = SlingModel.New.Safely.header) :=
  ⟨(body_setters_nil_noop_nonnil_sets_amended.2.2.1 SlingModel.New (JVal.jstr "x")).2.1 rfl,
   (body_setters_nil_noop_nonnil_sets_amended.2.2.2 SlingModel.New
      (QueryStruct.flat [("f", ["1"])])).2.1 rfl,
   (body_setters_nil_noop_nonnil_sets_amended.2.2.1 SlingModel.New.Safely (JVal.jstr "x")).1,
   (body_setters_nil_noop_nonnil_sets_amended.2.2.1 SlingModel.New.Safely
      (JVal.jstr "x")).2.2 rfl⟩

/-- C6: Do with a nil decode target returns the transport's response with a
nil error and closes the body stream, skipping decoding entirely, whatever
the response body contains. -/
theorem do_nil_target_skips_decoding :
    ∀ (s : Sling) (resp : HTTPResponse),
      s.Do (.ok resp) none
        = { resp := some resp, err := none, bodyClosed := true } :=
  fun _ _ => rfl

/-- C7: when the transport succeeded but decoding the body into the non-nil
target fails, Do returns the decoding error together with the already
received response (and the body stream was closed). -/
theorem do_decode_error_returns_response :
    ∀ (s : Sling) (resp : HTTPResponse) (e : String),
      decodeResponse resp = .error e →
      s.Do (.ok resp) (some ())
        = { resp := some resp, err := some e, bodyClosed := true } := by
  intro s resp e h
  simp only [Sling.Do]
  rw [h]

/-- Witness for C7: a body that is not JSON fails to decode and the response
is still returned. -/
theorem do_decode_error_returns_response_witness :
    SlingModel.New.Do (.ok { statusCode := 500, header := [], body := "not json" }) (some ())
      = { resp := some { statusCode := 500, header := [], body := "not json" },
          err := some "invalid literal in JSON", bodyClosed := true } :=
  do_decode_error_returns_response SlingModel.New _ _ rfl

/-- C5: Request returns an error and no request value whenever the
accumulated URL fails to parse, query-struct flattening fails, or body
encoding fails; in particular JSON-encoding a non-finite floating-point
value (infinity) fails the build with the encoding error, producing no
request. -/
theorem request_failure_no_request :
    (∀ (s : Sling) (e : String),
      urlParse s.rawUrl = .error e → s.Request = .error e) ∧
    (∀ (s : Sling) (u : URL) (e : String),
      urlParse s.rawUrl = .ok u → addQueryStructs u s.queryStructs = .error e →
      s.Request = .error e) ∧
    (∀ (s : Sling) (u u2 : URL) (e : String),
      urlParse s.rawUrl = .ok u → addQueryStructs u s.queryStructs = .ok u2 →
      s.getRequestBody = .error e → s.Request = .error e) ∧
    ((SlingModel.New.JsonBody (some (JVal.jnum false "+Inf"))).Request
      = .error "json: unsupported value: +Inf") := by
  refine ⟨?_, ?_, ?_, rfl⟩
  · intro s e h
    simp only [Sling.Request, Sling.safely_eq]
    rw [h]
  · intro s u e h1 h2
    simp only [Sling.Request, Sling.safely_eq, h1, h2]
  · intro s u u2 e h1 h2 h3
    simp only [Sling.Request, Sling.safely_eq, h1, h2, h3]

/-- Witness for C5: an unparsable URL, a failing query struct, and an
infinite JSON number each abort the build with the error. -/
theorem request_failure_no_request_witness :
    ((SlingModel.New.Base "\x7f").Request
      = .error "net/url: invalid control character in URL") ∧
    (((SlingModel.New.Base "http://a.io").QueryStruct
        (some (QueryStruct.invalid "query: invalid input"))).Request
      = .error "query: invalid input") ∧
    ((SlingModel.New.JsonBody (some (JVal.jnum false "+Inf"))).Request
      = .error "json: unsupported value: +Inf") :=
  ⟨request_failure_no_request.1 _ _ rfl,
   request_failure_no_request.2.1 _ { scheme := "http", host := "a.io" } _ rfl rfl,
   request_failure_no_request.2.2.1 _ { } { } _ rfl rfl rfl⟩

/-- C3: Request merges query parameters additively — for every key, the
values already present are preserved and the flattened struct values are
appended (so duplicate keys across structs repeat rather than overwrite) —
and the final query string is key-sorted: structs {limit:30} then
{count:25, kind_name:"recent"} against base "http://a.io" produce
"http://a.io?count=25&kind_name=recent&limit=30", and a pre-existing query
parameter on the URL survives the merge. -/
theorem query_merge_additive_sorted :
    (∀ (uv : Values) (pairs : List (String × List String)) (k : String),
      assocGet (addPairs uv pairs) k = assocGet uv k ++ pairsFor pairs k) ∧
    ((((SlingModel.New.Base "http://a.io").QueryStruct
          (some (QueryStruct.flat [("limit", ["30"])]))).QueryStruct
          (some (QueryStruct.flat [("count", ["25"]), ("kind_name", ["recent"])]))).Request.map
        (fun r => URL.string r.url)
      = .ok "http://a.io?count=25&kind_name=recent&limit=30") ∧
    (((SlingModel.New.Base "http://a.io?initial=7").QueryStruct
          (some (QueryStruct.flat [("limit", ["30"])]))).Request.map
        (fun r => URL.string r.url)
      = .ok "http://a.io?initial=7&limit=30") :=
  ⟨assocGet_addPairs, rfl, rfl⟩

/-- The body bytes attached by a successful Request are exactly what
getRequestBody produced. -/
theorem Sling.request_ok_body (s : Sling) (req : HTTPRequest)
    (h : s.Request = .ok req) : s.getRequestBody = .ok req.body := by
  simp only [Sling.Request, Sling.safely_eq] at h
  cases hu : urlParse s.rawUrl with
  | error e =>
    simp only [hu] at h
    exact absurd h (by simp)
  | ok u =>
    simp only [hu] at h
    cases hq : addQueryStructs u s.queryStructs with
    | error e =>
      simp only [hq] at h
      exact absurd h (by simp)
    | ok u2 =>
      simp only [hq] at h
      cases hb : s.getRequestBody with
      | error e =>
        simp only [hb] at h
        exact absurd h (by simp)
      | ok body =>
        simp only [hb] at h
        cases hn : httpNewRequest s.method (URL.string u2) body with
        | error e =>
          simp only [hn] at h
          exact absurd h (by simp)
        | ok req0 =>
          simp only [hn] at h
          have hreq : addHeaders req0 s.header = req := by
            injection h
          have hb0 : req0.body = body := by
            simp only [httpNewRequest] at hn
            cases hv : validMethod (if s.method = "" then "GET" else s.method) with
            | false => simp [hv] at hn
            | true =>
              simp [hv] at hn
              cases hp : urlParse (URL.string u2) with
              | error e2 =>
                simp only [hp] at hn
                exact absurd hn (by simp)
              | ok uu =>
                simp only [hp] at hn
                injection hn with h2
                rw [← h2]
          rw [← hreq]
          show Except.ok body = Except.ok req0.body
          rw [hb0]

/-- C10: the stored body payload is encoded into the built request only when
the builder's Content-Type header matches that payload's kind; a JSON
payload whose Content-Type was changed away from application/json (with no
form payload eligible) yields a request with no body at all, symmetrically
for the form payload, and any body that is present comes from exactly one
matching encoder. -/
theorem body_requires_matching_content_type :
    ∀ (s : Sling) (req : HTTPRequest), s.Request = .ok req →
      ((s.jsonBody.isSome ∧ headerGet s.header contentType ≠ jsonContentType ∧
          (s.bodyStruct = none ∨ headerGet s.header contentType ≠ formContentType)) →
        req.body = none) ∧
      ((s.bodyStruct.isSome ∧ headerGet s.header contentType ≠ formContentType ∧
          (s.jsonBody = none ∨ headerGet s.header contentType ≠ jsonContentType)) →
        req.body = none) ∧
      (∀ d : String, req.body = some d →
        (headerGet s.header contentType = jsonContentType ∧ s.jsonBody.isSome ∧
          encodeJSONBody s.jsonBody = .ok d) ∨
        (∃ b : QueryStruct, headerGet s.header contentType = formContentType ∧
          s.bodyStruct = some b ∧ encodeBodyStruct b = .ok d)) := by
  intro s req hreq
  have hb := Sling.request_ok_body s req hreq
  simp only [Sling.getRequestBody, Sling.safely_eq] at hb
  by_cases hj : s.jsonBody.isSome ∧ headerGet s.header contentType = jsonContentType
  · rw [if_pos hj] at hb
    cases he : encodeJSONBody s.jsonBody with
    | error e => rw [he] at hb; exact absurd hb (by simp)
    | ok bytes =>
      rw [he] at hb
      have hbody : req.body = some bytes := by
        injection hb with h2
        exact h2.symm
      refine ⟨?_, ?_, ?_⟩
      · rintro ⟨-, hct, -⟩
        exact absurd hj.2 hct
      · rintro ⟨-, -, hdisj⟩
        rcases hdisj with hn | hctj
        · have hjs := hj.1
          rw [hn] at hjs
          exact absurd hjs (by simp)
        · exact absurd hj.2 hctj
      · intro d hd
        left
        refine ⟨hj.2, hj.1, ?_⟩
        rw [hbody] at hd
        injection hd with h3
        rw [h3]
  · rw [if_neg hj] at hb
    by_cases hf : s.bodyStruct.isSome ∧ headerGet s.header contentType = formContentType
    · rw [if_pos hf] at hb
      obtain ⟨b, hbs⟩ := Option.isSome_iff_exists.mp hf.1
      have hb2 : (match encodeBodyStruct b with
          | .error e => (.error e : Except String (Option String))
          | .ok bytes => .ok (some bytes)) = .ok req.body := by
        rw [hbs] at hb
        exact hb
      cases he : encodeBodyStruct b with
      | error e => rw [he] at hb2; exact absurd hb2 (by simp)
      | ok bytes =>
        rw [he] at hb2
        have hbody : req.body = some bytes := by
          injection hb2 with h2
          exact h2.symm
        refine ⟨?_, ?_, ?_⟩
        · rintro ⟨-, -, hdisj⟩
          rcases hdisj with hn | hctf
          · rw [hn] at hbs; exact absurd hbs (by simp)
          · exact absurd hf.2 hctf
        · rintro ⟨-, hctf, -⟩
          exact absurd hf.2 hctf
        · intro d hd
          right
          refine ⟨b, hf.2, hbs, ?_⟩
          rw [he]
          rw [hbody] at hd
          injection hd with h3
          rw [h3]
    · rw [if_neg hf] at hb
      have hbody : req.body = none := by
        injection hb with h2
        exact h2.symm
      refine ⟨fun _ => hbody, fun _ => hbody, ?_⟩
      intro d hd
      rw [hbody] at hd
      exact absurd hd (by simp)

/-- Witness for C10: a JSON payload whose Content-Type header was later set
to text/plain produces a request with no body. -/
theorem body_requires_matching_content_type_witness :
    ({ method := "GET", url := { }, body := none,
       header := [("Content-Type", ["text/plain"])] } : HTTPRequest).body = none :=
  (body_requires_matching_content_type
      ((SlingModel.New.JsonBody (some (JVal.jstr "x"))).Set "Content-Type" "text/plain")
      { method := "GET", url := { }, body := none,
        header := [("Content-Type", ["text/plain"])] }
      rfl).1
    ⟨by decide, by decide, Or.inl (by decide)⟩

/-- C1: for every base builder B and child C = B.New() the header map and
the query-struct list are deep-copied into fresh cells, so no sequence of
mutating operations (Add/Set/QueryStruct, or any other setter) applied to
the child ever changes the parent's header map or query-struct list, and
vice versa; and the child's body payload is captured at derivation time, so
setting a new payload on the parent afterwards changes only the parent. -/
theorem derived_child_isolated :
    ∀ (h h1 : HeapState) (B C : SlingObj),
      validRefs h B → B.newObj h = (h1, C) →
      (C.jsonBody = B.jsonBody ∧ C.bodyStruct = B.bodyStruct) ∧
      (∀ ops : List BuilderOp,
        readHeaderCell (applyOps h1 C ops).1 B.headerRef = readHeaderCell h B.headerRef ∧
        readQueryCell (applyOps h1 C ops).1 B.queryRef = readQueryCell h B.queryRef) ∧
      (∀ ops : List BuilderOp,
        readHeaderCell (applyOps h1 B ops).1 C.headerRef = readHeaderCell h1 C.headerRef ∧
        readQueryCell (applyOps h1 B ops).1 C.queryRef = readQueryCell h1 C.queryRef) ∧
      (∀ j : JVal, (applyOp h1 B (.jsonB (some j))).2.jsonBody = some j) := by
  intro h h1 B C hv hEq
  obtain ⟨hvH, hvQ⟩ := hv
  have hfst : (B.newObj h).1
      = { headerCells := h.headerCells ++ [readHeaderCell h B.headerRef],
          queryCells := h.queryCells ++ [readQueryCell h B.queryRef] } := rfl
  have hsnd : (B.newObj h).2
      = { B with headerRef := h.headerCells.length,
                 queryRef := h.queryCells.length } := rfl
  have hh1 : h1 = { headerCells := h.headerCells ++ [readHeaderCell h B.headerRef],
                    queryCells := h.queryCells ++ [readQueryCell h B.queryRef] } :=
    (congrArg Prod.fst hEq).symm.trans hfst
  have hC : C = { B with headerRef := h.headerCells.length,
                         queryRef := h.queryCells.length } :=
    (congrArg Prod.snd hEq).symm.trans hsnd
  subst hh1
  subst hC
  refine ⟨⟨rfl, rfl⟩, ?_, ?_, fun j => rfl⟩
  · intro ops
    have hfp : framePred
        { headerCells := h.headerCells ++ [readHeaderCell h B.headerRef],
          queryCells := h.queryCells ++ [readQueryCell h B.queryRef] }
        { B with headerRef := h.headerCells.length, queryRef := h.queryCells.length }
        B.headerRef B.queryRef := by
      refine ⟨?_, ?_, ?_, ?_⟩
      · simpa using Nat.lt_succ_of_lt hvH
      · simpa using Nat.lt_succ_of_lt hvQ
      · exact Nat.ne_of_lt hvH
      · exact Nat.ne_of_lt hvQ
    obtain ⟨-, e1, e2⟩ := applyOps_frame ops _ _ B.headerRef B.queryRef hfp
    refine ⟨?_, ?_⟩
    · rw [e1]
      exact getD_append_left _ _ _ _ hvH
    · rw [e2]
      exact getD_append_left _ _ _ _ hvQ
  · intro ops
    have hfp : framePred
        { headerCells := h.headerCells ++ [readHeaderCell h B.headerRef],
          queryCells := h.queryCells ++ [readQueryCell h B.queryRef] }
        B h.headerCells.length h.queryCells.length := by
      refine ⟨?_, ?_, ?_, ?_⟩
      · simp
      · simp
      · exact (Nat.ne_of_lt hvH).symm
      · exact (Nat.ne_of_lt hvQ).symm
    obtain ⟨-, e1, e2⟩ := applyOps_frame ops _ _ h.headerCells.length h.queryCells.length hfp
    exact ⟨e1, e2⟩

/-- Witness for C1: a concrete parent with one header and one query struct;
mutating the derived child through Add, Set and QueryStruct leaves the
parent's cells untouched, and mutating the parent leaves the child's cells
untouched. -/
theorem derived_child_isolated_witness :
    (readHeaderCell (applyOps
        { headerCells := [[("K", ["v"])], [("K", ["v"])]],
          queryCells := [[QueryStruct.flat [("a", ["1"])]], [QueryStruct.flat [("a", ["1"])]]] }
        { httpClient := some 0, method := "", rawUrl := "", headerRef := 1, queryRef := 1,
          jsonBody := none, bodyStruct := none, safeMode := false }
        [BuilderOp.addH "X" "y", BuilderOp.setH "K" "z",
         BuilderOp.queryS (some (QueryStruct.flat [("b", ["2"])]))]).1 0
      = [("K", ["v"])] ∧
     readQueryCell (applyOps
        { headerCells := [[("K", ["v"])], [("K", ["v"])]],
          queryCells := [[QueryStruct.flat [("a", ["1"])]], [QueryStruct.flat [("a", ["1"])]]] }
        { httpClient := some 0, method := "", rawUrl := "", headerRef := 1, queryRef := 1,
          jsonBody := none, bodyStruct := none, safeMode := false }
        [BuilderOp.addH "X" "y", BuilderOp.setH "K" "z",
         BuilderOp.queryS (some (QueryStruct.flat [("b", ["2"])]))]).1 0
      = [QueryStruct.flat [("a", ["1"])]]) ∧
    (readHeaderCell (applyOps
        { headerCells := [[("K", ["v"])], [("K", ["v"])]],
          queryCells := [[QueryStruct.flat [("a", ["1"])]], [QueryStruct.flat [("a", ["1"])]]] }
        { httpClient := some 0, method := "", rawUrl := "", headerRef := 0, queryRef := 0,
          jsonBody := none, bodyStruct := none, safeMode := false }
        [BuilderOp.setH "K" "w"]).1 1
      = [("K", ["v"])]) :=
  ⟨(derived_child_isolated
      { headerCells := [[("K", ["v"])]], queryCells := [[QueryStruct.flat [("a", ["1"])]]] }
      { headerCells := [[("K", ["v"])], [("K", ["v"])]],
        queryCells := [[QueryStruct.flat [("a", ["1"])]], [QueryStruct.flat [("a", ["1"])]]] }
      { httpClient := some 0, method := "", rawUrl := "", headerRef := 0, queryRef := 0,
        jsonBody := none, bodyStruct := none, safeMode := false }
      { httpClient := some 0, method := "", rawUrl := "", headerRef := 1, queryRef := 1,
        jsonBody := none, bodyStruct := none, safeMode := false }
      (by exact ⟨by decide, by decide⟩) rfl).2.1
    [BuilderOp.addH "X" "y", BuilderOp.setH "K" "z",
     BuilderOp.queryS (some (QueryStruct.flat [("b", ["2"])]))],
   ((derived_child_isolated
      { headerCells := [[("K", ["v"])]], queryCells := [[QueryStruct.flat [("a", ["1"])]]] }
      { headerCells := [[("K", ["v"])], [("K", ["v"])]],
        queryCells := [[QueryStruct.flat [("a", ["1"])]], [QueryStruct.flat [("a", ["1"])]]] }
      { httpClient := some 0, method := "", rawUrl := "", headerRef := 0, queryRef := 0,
        jsonBody := none, bodyStruct := none, safeMode := false }
      { httpClient := some 0, method := "", rawUrl := "", headerRef := 1, queryRef := 1,
        jsonBody := none, bodyStruct := none, safeMode := false }
      (by exact ⟨by decide, by decide⟩) rfl).2.2.1
    [BuilderOp.setH "K" "w"]).1⟩

end SlingModel

